import Mathlib

/-!
Verification of the anti-bot-scraper request engine against its
natural-language specification.

The Go sources are embedded shallowly: pure functions become Lean
functions, the mutable per-proxy health record and the proxy rotator
become explicit state passing, and the retry loop of
`AdvancedScraper.GetWithRetry` becomes a structurally recursive function
over an oracle of attempt outcomes.  Go maps are modelled as association
lists (Go map iteration order is unspecified; every positive theorem
below is independent of the chosen order, and counterexamples use
single-entry or order-independent pools).  Durations are in
milliseconds.  Code paths that panic in Go (index out of range,
division by zero in `%`) are modelled by `Option`, `none` being the
panic.
-/

/-- Browser TLS fingerprint identities, from `internal/scraper/scraper.go`. -/
inductive Fingerprint
  | chrome
  | firefox
  | safari
  | edge
deriving DecidableEq, Repr

/-- HTTP protocol selector, from `internal/scraper/scraper.go`
(`HTTP1_1`, `HTTP2`, `HTTPAuto`). -/
inductive ProtocolVersion
  | http1_1
  | http2
  | httpAuto
deriving DecidableEq, Repr

/-- Go `getALPNProtocols`: ALPN protocol list for the desired HTTP version. -/
def getALPNProtocols : ProtocolVersion → List String
  | .http1_1 => ["http/1.1"]
  | .http2 => ["h2", "http/1.1"]
  | .httpAuto => ["h2", "http/1.1"]

/-- Go `dialTLSWithProtocol`'s `nextProtos` switch (the `utls.Config`
`NextProtos` field handed to the uTLS client). -/
def dialNextProtos : ProtocolVersion → List String
  | .http1_1 => ["http/1.1"]
  | .http2 => ["h2", "http/1.1"]
  | .httpAuto => ["h2", "http/1.1"]

/-- TLS extensions of a uTLS `ClientHelloSpec`, as a closed sum.  Payloads
carry the IANA code points (curves, signature schemes, versions) or the
protocol strings (ALPN, application settings) exactly as listed in the
Go source. -/
inductive TLSExtension
  | sni
  | extendedMasterSecret
  | renegotiationInfo (mode : Nat)
  | supportedCurves (curves : List Nat)
  | supportedPoints (points : List Nat)
  | sessionTicket
  | alpn (protocols : List String)
  | statusRequest
  | signatureAlgorithms (schemes : List Nat)
  | sct
  | keyShare (groups : List Nat)
  | pskKeyExchangeModes (modes : List Nat)
  | supportedVersions (versions : List Nat)
  | applicationSettings (protocols : List String)
deriving DecidableEq, Repr

/-- uTLS `ClientHelloSpec`: version bounds, ordered cipher suites
(IANA code points), ordered extensions. -/
structure ClientHelloSpec where
  tlsVersMax : Nat
  tlsVersMin : Nat
  cipherSuites : List Nat
  extensions : List TLSExtension
deriving DecidableEq, Repr

/-- Go `getChromeClientHelloSpec` (IANA code points for the utls
constants; 0x1301 TLS_AES_128_GCM_SHA256 and so on). -/
def getChromeClientHelloSpec (protocol : ProtocolVersion) : ClientHelloSpec :=
  { tlsVersMax := 0x0304
    tlsVersMin := 0x0303
    cipherSuites :=
      [0x1301, 0x1302, 0x1303, 0xc02b, 0xc02f, 0xc02c, 0xc030, 0xcca9,
       0xcca8, 0xc013, 0xc014, 0x009c, 0x009d, 0x002f, 0x0035]
    extensions :=
      [.sni,
       .extendedMasterSecret,
       .renegotiationInfo 1,
       .supportedCurves [29, 23, 24],
       .supportedPoints [0],
       .sessionTicket,
       .alpn (getALPNProtocols protocol),
       .statusRequest,
       .signatureAlgorithms [0x0403, 0x0804, 0x0401, 0x0503, 0x0805, 0x0501, 0x0806, 0x0601],
       .sct,
       .keyShare [29, 23],
       .pskKeyExchangeModes [1],
       .supportedVersions [0x0304, 0x0303],
       .applicationSettings (getALPNProtocols protocol)] }

/-- Go `getFirefoxClientHelloSpec`. -/
def getFirefoxClientHelloSpec (protocol : ProtocolVersion) : ClientHelloSpec :=
  { tlsVersMax := 0x0304
    tlsVersMin := 0x0303
    cipherSuites :=
      [0x1301, 0x1303, 0x1302, 0xc02b, 0xc02f, 0xcca9, 0xcca8, 0xc02c,
       0xc030, 0xc00a, 0xc009, 0xc013, 0xc014, 0x009c, 0x009d, 0x002f, 0x0035]
    extensions :=
      [.sni,
       .extendedMasterSecret,
       .renegotiationInfo 1,
       .supportedCurves [29, 23, 24, 25],
       .supportedPoints [0],
       .sessionTicket,
       .alpn (getALPNProtocols protocol),
       .statusRequest,
       .signatureAlgorithms [0x0403, 0x0503, 0x0603, 0x0804, 0x0805, 0x0806, 0x0401, 0x0501, 0x0601],
       .keyShare [29, 23],
       .pskKeyExchangeModes [1],
       .supportedVersions [0x0304, 0x0303]] }

/-- Go `getSafariClientHelloSpec`. -/
def getSafariClientHelloSpec (protocol : ProtocolVersion) : ClientHelloSpec :=
  { tlsVersMax := 0x0304
    tlsVersMin := 0x0303
    cipherSuites :=
      [0x1301, 0x1302, 0x1303, 0xc02c, 0xc02b, 0xcca9, 0xc030, 0xc02f,
       0xcca8, 0xc00a, 0xc009, 0xc014, 0xc013]
    extensions :=
      [.sni,
       .extendedMasterSecret,
       .renegotiationInfo 1,
       .supportedCurves [29, 23, 24, 25],
       .supportedPoints [0],
       .sessionTicket,
       .alpn (getALPNProtocols protocol),
       .statusRequest,
       .signatureAlgorithms [0x0403, 0x0804, 0x0401, 0x0503, 0x0805, 0x0501, 0x0806, 0x0601],
       .keyShare [29],
       .pskKeyExchangeModes [1],
       .supportedVersions [0x0304, 0x0303]] }

/-- Go `getEdgeClientHelloSpec` delegates to Chrome (Chromium base). -/
def getEdgeClientHelloSpec (protocol : ProtocolVersion) : ClientHelloSpec :=
  getChromeClientHelloSpec protocol

/-- Go `getBrowserClientHelloSpec`. -/
def getBrowserClientHelloSpec (fingerprint : Fingerprint) (protocol : ProtocolVersion) :
    ClientHelloSpec :=
  match fingerprint with
  | .chrome => getChromeClientHelloSpec protocol
  | .firefox => getFirefoxClientHelloSpec protocol
  | .safari => getSafariClientHelloSpec protocol
  | .edge => getEdgeClientHelloSpec protocol

/-- The payloads of the ALPN extensions of a ClientHello spec, in order. -/
def alpnAdvertised (spec : ClientHelloSpec) : List (List String) :=
  spec.extensions.filterMap fun e =>
    match e with
    | .alpn protocols => some protocols
    | _ => none

/-- Per-proxy health record, from `ProxyHealth` in
`internal/scraper/advanced.go`.  `status` keeps the Go string values
"active", "degraded", "failed", "disabled".  Wall-clock (`LastCheck`),
floating-point (`Uptime`) and region fields, which no claim touches, are
omitted; latency is in milliseconds. -/
structure ProxyHealth where
  url : String
  isHealthy : Bool
  latencyMs : Nat
  failureCount : Nat
  successCount : Nat
  lastError : String
  status : String
deriving DecidableEq, Repr

/-- Go `ProxyHealthChecker.AddProxy`'s fresh record: healthy, status
"active", zero counters. -/
def newProxyHealth (url : String) : ProxyHealth :=
  { url := url
    isHealthy := true
    latencyMs := 0
    failureCount := 0
    successCount := 0
    lastError := ""
    status := "active" }

/-- Ten seconds in milliseconds: the `recordSuccess` degraded-latency
threshold (`health.Latency > 10*time.Second`). -/
def degradedLatencyThresholdMs : Nat := 10000

/-- One hour in milliseconds: `getHealthyProxy`'s initial best-latency
sentinel (`time.Hour`). -/
def hourMs : Nat := 3600000

/-- Go `ProxyHealthChecker.recordSuccess`: store latency, bump the
success counter, clear the error, set status by the latency threshold,
and mark healthy. -/
def recordSuccess (h : ProxyHealth) (latencyMs : Nat) : ProxyHealth :=
  { h with
    latencyMs := latencyMs
    successCount := h.successCount + 1
    lastError := ""
    status := if degradedLatencyThresholdMs < latencyMs then "degraded" else "active"
    isHealthy := true }

/-- Go `ProxyHealthChecker.recordFailure`: bump the failure counter,
store the error, and mark failed when
`FailureCount - SuccessCount >= maxFailures` (lifetime totals, a Go
`int` subtraction), else degraded. -/
def recordFailure (maxFailures : Nat) (h : ProxyHealth) (errMsg : String) : ProxyHealth :=
  let fc := h.failureCount + 1
  if (maxFailures : Int) ≤ (fc : Int) - (h.successCount : Int) then
    { h with failureCount := fc, lastError := errMsg, isHealthy := false, status := "failed" }
  else
    { h with failureCount := fc, lastError := errMsg, status := "degraded" }

/-- The health checker's proxy map, as an association list. -/
abbrev HealthMap : Type := List (String × ProxyHealth)

/-- Go `ProxyHealthChecker.GetHealthyProxies`: the URLs whose record is
healthy with status "active". -/
def getHealthyProxies (hm : HealthMap) : List String :=
  (List.filter (fun p => p.2.isHealthy && p.2.status == "active") hm).map Prod.fst

/-- Go `ProxyHealthChecker.GetProxyHealth`: map lookup. -/
def getProxyHealth (hm : HealthMap) (proxyURL : String) : Option ProxyHealth :=
  List.lookup proxyURL hm

/-- Proxy rotation modes, from the `ProxyRotationMode` constants. -/
inductive ProxyRotationMode
  | rotatePerRequest
  | rotateOnError
  | healthAware
deriving DecidableEq, Repr

/-- Go `ProxyRotator`.  The nilable `healthChecker` pointer becomes an
`Option HealthMap` (the checker's only state the rotator reads is its
proxy map). -/
structure ProxyRotator where
  proxies : List String
  current : Nat
  mode : ProxyRotationMode
  failedCount : List (String × Nat)
  healthChecker : Option (List (String × ProxyHealth))
  enableHealth : Bool
deriving DecidableEq, Repr

/-- One iteration of `getHealthyProxy`'s best-proxy scan: look the URL
up in the health map and take it when its latency strictly beats the
best seen so far. -/
def bestStep (hm : HealthMap) (acc : String × Nat) (u : String) : String × Nat :=
  match getProxyHealth hm u with
  | some h => if h.latencyMs < acc.2 then (u, h.latencyMs) else acc
  | none => acc

/-- The scan inside `getHealthyProxy` over the healthy URLs for the
lowest-latency one, starting from the sentinel ("", one hour). -/
def findBestProxy (hm : HealthMap) (healthy : List String) : String × Nat :=
  healthy.foldl (bestStep hm) ("", hourMs)

/-- The shared "simple rotation" fallback: return `proxies[current]` and
advance the index modulo the length (`none` is Go's index-out-of-range
panic; the modulus is only computed here with a non-empty list). -/
def fallbackRotate (pr : ProxyRotator) : Option (String × ProxyRotator) :=
  match pr.proxies.get? pr.current with
  | some p => some (p, { pr with current := (pr.current + 1) % pr.proxies.length })
  | none => none

/-- Go `ProxyRotator.getHealthyProxy`: with health monitoring on, filter
to healthy-active proxies; if none, fall back to simple rotation over
the full list; otherwise return the lowest-latency healthy proxy
(first healthy proxy when the scan never beat the one-hour sentinel). -/
def getHealthyProxy (pr : ProxyRotator) : Option (String × ProxyRotator) :=
  if pr.enableHealth then
    match pr.healthChecker with
    | some hm =>
      let healthy := getHealthyProxies hm
      match healthy with
      | [] => fallbackRotate pr
      | first :: _ =>
        let best := findBestProxy hm healthy
        if best.1 = "" then some (first, pr) else some (best.1, pr)
    | none => fallbackRotate pr
  else fallbackRotate pr

/-- Go `ProxyRotator.GetNext`: empty pool yields the empty sentinel;
per-request mode rotates; health-aware mode delegates to
`getHealthyProxy`; on-error mode returns the current proxy unchanged. -/
def getNext (pr : ProxyRotator) : Option (String × ProxyRotator) :=
  if pr.proxies.length = 0 then some ("", pr)
  else
    match pr.mode with
    | .rotatePerRequest => fallbackRotate pr
    | .healthAware => getHealthyProxy pr
    | .rotateOnError => (pr.proxies.get? pr.current).map (fun p => (p, pr))

/-- Increment of the legacy `failedCount` map. -/
def bumpFailedCount (l : List (String × Nat)) (k : String) : List (String × Nat) :=
  match l with
  | [] => [(k, 1)]
  | (a, b) :: t => if a = k then (a, b + 1) :: t else (a, b) :: bumpFailedCount t k

/-- Go `ProxyRotator.MarkFailed`: bump the legacy failure counter;
(asynchronous health-probe trigger not modelled — it does not touch the
rotator's state); in modes other than health-aware advance the index by
`(current + 1) % len(proxies)` — `none` is Go's division-by-zero panic
on an empty list. -/
def markFailed (pr : ProxyRotator) (proxyURL : String) : Option ProxyRotator :=
  let pr1 := { pr with failedCount := bumpFailedCount pr.failedCount proxyURL }
  if pr1.mode ≠ .healthAware then
    if pr1.proxies.length = 0 then none
    else some { pr1 with current := (pr1.current + 1) % pr1.proxies.length }
  else some pr1

/-- Normalized HTTP response, from `Response` in
`internal/scraper/scraper.go`. -/
structure Response where
  statusCode : Nat
  headers : List (String × List String)
  body : String
  url : String
deriving DecidableEq, Repr

/-- One attempt's outcome as seen by `GetWithRetry`: `a.Get` either
errors or yields a response. -/
abbrev AttemptOutcome : Type := Except String Response

/-- The observable trace of one `GetWithRetry` run: the returned
response (`none` when all attempts were consumed), the final `lastErr`
(Go's wrapped error may wrap `nil` when the last attempt returned a
5xx response without a transport error), the number of attempts made,
and the backoff sleeps performed, in milliseconds. -/
structure RetryRun where
  result : Option Response
  lastErr : Option String
  attempts : Nat
  sleeps : List Nat
deriving DecidableEq, Repr

/-- The backoff slept after failed attempt `i` in `GetWithRetry`:
`time.Duration(i+1) * 2 * time.Second`, in milliseconds. -/
def backoffMs (i : Nat) : Nat := 2000 * (i + 1)

/-- The loop body of `AdvancedScraper.GetWithRetry`
(`internal/scraper/advanced.go` lines 115-141), run from attempt index
`i` with `fuel` attempts remaining (initially `retryCount + 1`).  The
oracle gives attempt `i`'s outcome.  An attempt succeeds exactly when it
returned without error and the status code is below 500
(`err == nil && response.StatusCode < 500`); otherwise the loop sleeps
`backoffMs i` and retries while fuel remains.  `retryStep` is one failed
non-final iteration: the backoff sleep followed by the rest of the
loop. -/
def retryStep (rest : RetryRun) (i : Nat) : RetryRun :=
  { result := rest.result
    lastErr := rest.lastErr
    attempts := rest.attempts + 1
    sleeps := backoffMs i :: rest.sleeps }

/-- The loop of `GetWithRetry`, split by remaining fuel: the final
attempt (fuel 1) returns without sleeping; an earlier failed attempt
backs off and continues. -/
def getWithRetryLoop (oracle : Nat → AttemptOutcome) (i : Nat) : Nat → RetryRun
  | 0 => { result := none, lastErr := none, attempts := 0, sleeps := [] }
  | 1 =>
    match oracle i with
    | .ok resp =>
      if resp.statusCode < 500 then
        { result := some resp, lastErr := none, attempts := 1, sleeps := [] }
      else { result := none, lastErr := none, attempts := 1, sleeps := [] }
    | .error e => { result := none, lastErr := some e, attempts := 1, sleeps := [] }
  | fuel + 2 =>
    match oracle i with
    | .ok resp =>
      if resp.statusCode < 500 then
        { result := some resp, lastErr := none, attempts := 1, sleeps := [] }
      else retryStep (getWithRetryLoop oracle (i + 1) (fuel + 1)) i
    | .error _ => retryStep (getWithRetryLoop oracle (i + 1) (fuel + 1)) i

/-- `AdvancedScraper.GetWithRetry` with retry count `r`: up to `r + 1`
attempts starting at index 0. -/
def getWithRetryModel (oracle : Nat → AttemptOutcome) (retryCount : Nat) : RetryRun :=
  getWithRetryLoop oracle 0 (retryCount + 1)

/-- Cookie as stored by the jar (the fields `AdvancedScraper` reads). -/
structure Cookie where
  name : String
  value : String
deriving DecidableEq, Repr

/-- The session cookie jar: per-domain cookie lists
(`CookieJar.cookies`). -/
abbrev Jar : Type := List (String × List Cookie)

/-- Split a character list at every occurrence of `c` (the list-level
analogue of Go's `strings.Split`). -/
def splitCharList (c : Char) : List Char → List (List Char)
  | [] => [[]]
  | x :: t =>
    if x = c then [] :: splitCharList c t
    else
      match splitCharList c t with
      | [] => [[x]]
      | h :: r => (x :: h) :: r

/-- Join character lists with the separator `c` (inverse of
`splitCharList`). -/
def joinCharList (c : Char) : List (List Char) → List Char
  | [] => []
  | [x] => x
  | x :: y :: r => x ++ c :: joinCharList c (y :: r)

/-- Strip leading and trailing ASCII spaces. -/
def trimSpaces (l : List Char) : List Char :=
  ((l.dropWhile (fun c => c = ' ')).reverse.dropWhile (fun c => c = ' ')).reverse

/-- One `name=value` pair of a `Cookie` request header, as Go's
`net/http` `readCookies` parses it (name before the first `=`, the
rest is the value; a part without `=` is skipped). -/
def parseCookiePair (s : String) : Option Cookie :=
  match splitCharList '=' s.data with
  | [] => none
  | [_] => none
  | name :: v :: rest =>
    some { name := String.mk name, value := String.mk (joinCharList '=' (v :: rest)) }

/-- Go `net/http`: `(*Request).Cookies()` parses the request `Cookie`
header lines of the given header map — the key "Cookie", not
"Set-Cookie" — splitting each line on `;` and trimming spaces. -/
def requestCookies (header : List (String × List String)) : List Cookie :=
  ((List.lookup "Cookie" header).getD []).flatMap
    (fun line => (splitCharList ';' line.data).filterMap
      (fun part => parseCookiePair (String.mk (trimSpaces part))))

/-- Append cookies to a domain's list in the jar (`append` on the Go
map entry; a missing entry behaves as the empty list). -/
def jarAppend (jar : Jar) (domain : String) (cs : List Cookie) : Jar :=
  match jar with
  | [] => [(domain, cs)]
  | (d, old) :: t => if d = domain then (d, old ++ cs) :: t else (d, old) :: jarAppend t domain cs

/-- Go `AdvancedScraper.saveCookies` for a request to `domain`: for each
`Set-Cookie` response header line it builds a synthetic `http.Request`
whose header holds that line under "Set-Cookie" and appends
`request.Cookies()` — the parse of the (absent) "Cookie" header — to
the jar entry for the domain. -/
def saveCookies (jar : Jar) (domain : String) (headers : List (String × List String)) : Jar :=
  match List.lookup "Set-Cookie" headers with
  | some lines =>
    lines.foldl
      (fun j cookieStr => jarAppend j domain (requestCookies [("Set-Cookie", [cookieStr])]))
      jar
  | none => jar

/-- What the spec's cookie policy asks of a single merge step, stated
from the spec's words to compare with the code: a new cookie replaces a
prior jar entry of the same name (same domain list) instead of
duplicating it. -/
def specMergeCookie (cs : List Cookie) (c : Cookie) : List Cookie :=
  if cs.any (fun old => old.name = c.name) then
    cs.map (fun old => if old.name = c.name then c else old)
  else cs ++ [c]

/-- Exit-code model of `cmd/scraper/main.go`.  The input validation
(lines 141-152): requiring exactly one of `url` and `urls-file` exits
with code 1 otherwise. -/
def mainValidate (urlFlag urlsFileFlag : String) : Option Nat :=
  if urlFlag = "" ∧ urlsFileFlag = "" then some 1
  else if urlFlag ≠ "" ∧ urlsFileFlag ≠ "" then some 1
  else none

/-- The request loop of `main` (lines 206-234): each failed
`executeRequest` is logged and skipped (`continue`); the loop never
changes the process exit status.  Returns the log lines and the exit
code after the loop (`main` falls off its end: exit status 0). -/
def mainRequestLoop : List Bool → List String × Nat
  | [] => ([], 0)
  | ok :: rest =>
    (if ok then (mainRequestLoop rest).1 else "Request failed" :: (mainRequestLoop rest).1,
      (mainRequestLoop rest).2)

/-- Exit code of the `main` process given the two input flags and the
success/failure of each job (URL × request) executed. -/
def mainExitCode (urlFlag urlsFileFlag : String) (jobOutcomes : List Bool) : Nat :=
  match mainValidate urlFlag urlsFileFlag with
  | some c => c
  | none => (mainRequestLoop jobOutcomes).2

/-- Go `ProxyHealthChecker.EnableProxy`: mark healthy and active, reset
the failure counter. -/
def enableProxy (h : ProxyHealth) : ProxyHealth :=
  { h with isHealthy := true, status := "active", failureCount := 0 }

/-- Go `ProxyHealthChecker.DisableProxy`: mark unhealthy and disabled. -/
def disableProxy (h : ProxyHealth) : ProxyHealth :=
  { h with isHealthy := false, status := "disabled" }

/-- A proxy record driven to Failed by three hard failures from fresh
(`maxFailures` 3, the default). -/
def c2FailedHealth : ProxyHealth :=
  recordFailure 3
    (recordFailure 3
      (recordFailure 3 (newProxyHealth "p1") "connection refused")
      "connection refused")
    "connection refused"

/-- A proxy record degraded by a single hard failure from fresh. -/
def c2DegradedHealth : ProxyHealth :=
  recordFailure 3 (newProxyHealth "p2") "HTTP 503"

/-- A two-proxy health-aware rotator whose first proxy is Failed and
whose second is Degraded (not Failed). -/
def c2Rotator : ProxyRotator :=
  { proxies := ["p1", "p2"]
    current := 0
    mode := .healthAware
    failedCount := []
    healthChecker := some [("p1", c2FailedHealth), ("p2", c2DegradedHealth)]
    enableHealth := true }

/-- A one-proxy health-aware rotator whose only proxy is Disabled. -/
def c3Rotator : ProxyRotator :=
  { proxies := ["p1"]
    current := 0
    mode := .healthAware
    failedCount := []
    healthChecker := some [("p1", disableProxy (newProxyHealth "p1"))]
    enableHealth := true }

/-- A one-proxy per-request rotator, for the MarkFailed witness. -/
def c10Rotator : ProxyRotator :=
  { proxies := ["p1"]
    current := 0
    mode := .rotatePerRequest
    failedCount := []
    healthChecker := none
    enableHealth := false }

/-- A 429 Too Many Requests response. -/
def resp429 : Response :=
  { statusCode := 429, headers := [], body := "", url := "http://a.test/" }

/-- A 200 OK response. -/
def resp200 : Response :=
  { statusCode := 200, headers := [], body := "ok", url := "http://a.test/" }

/-- The proxy record obtained from fresh by two successes followed by
three hard failures, with `maxFailures` 3: three consecutive failures
since the last success. -/
def c6TwoSuccessThreeFailures : ProxyHealth :=
  recordFailure 3
    (recordFailure 3
      (recordFailure 3
        (recordSuccess (recordSuccess (newProxyHealth "q") 100) 100)
        "e")
      "e")
    "e"

/-- An alternating success/failure history of length `2 n` from fresh:
each round is one success (latency 100 ms) then one hard failure. -/
def alternate (maxFailures : Nat) : Nat → ProxyHealth
  | 0 => newProxyHealth "q"
  | n + 1 => recordFailure maxFailures (recordSuccess (alternate maxFailures n) 100) "e"

/-- An active proxy record with 50 ms observed latency. -/
def activeHealth50 : ProxyHealth := recordSuccess (newProxyHealth "p1") 50

/-- An active proxy record with 80 ms observed latency. -/
def activeHealth80 : ProxyHealth := recordSuccess (newProxyHealth "p2") 80

/-- A two-proxy health-aware rotator with both proxies Active, used as a
concrete witness pool. -/
def cwRotator : ProxyRotator :=
  { proxies := ["p1", "p2"]
    current := 0
    mode := .healthAware
    failedCount := []
    healthChecker := some [("p1", activeHealth50), ("p2", activeHealth80)]
    enableHealth := true }

/-- The health map of `cwRotator`. -/
def cwHealthMap : HealthMap := [("p1", activeHealth50), ("p2", activeHealth80)]

/-- Claim C1: for every browser profile, the force-http1 selector yields a
ClientHello whose ALPN extension advertises exactly ["http/1.1"], and the
force-http2 and auto selectors advertise ["h2", "http/1.1"] in the
profile's order; the uTLS `NextProtos` configuration agrees. -/
theorem alpn_matches_protocol_selector (fp : Fingerprint) :
    alpnAdvertised (getBrowserClientHelloSpec fp .http1_1) = [["http/1.1"]] ∧
    alpnAdvertised (getBrowserClientHelloSpec fp .http2) = [["h2", "http/1.1"]] ∧
    alpnAdvertised (getBrowserClientHelloSpec fp .httpAuto) = [["h2", "http/1.1"]] ∧
    (∀ p : ProtocolVersion, dialNextProtos p = getALPNProtocols p) := by
  refine ⟨?_, ?_, ?_, ?_⟩ <;> first
    | (cases fp <;> rfl)
    | (intro p; cases p <;> rfl)

/-- Helper: the loop never makes more attempts than it has fuel. -/
theorem getWithRetryLoop_attempts_le (oracle : Nat → AttemptOutcome) :
    ∀ fuel i, (getWithRetryLoop oracle i fuel).attempts ≤ fuel := by
  intro fuel
  induction fuel with
  | zero => intro i; simp [getWithRetryLoop]
  | succ n ih =>
    intro i
    cases n with
    | zero =>
      simp only [getWithRetryLoop]
      cases oracle i with
      | ok resp => by_cases hs : resp.statusCode < 500 <;> simp [hs]
      | error e => simp
    | succ m =>
      simp only [getWithRetryLoop]
      cases oracle i with
      | ok resp =>
        by_cases hs : resp.statusCode < 500
        · simp [hs]
        · simp only [hs, if_false, retryStep]
          exact Nat.succ_le_succ (ih (i + 1))
      | error e =>
        simp only [retryStep]
        exact Nat.succ_le_succ (ih (i + 1))

/-- Helper: with at least one unit of fuel, at least one attempt is
made. -/
theorem getWithRetryLoop_attempts_pos (oracle : Nat → AttemptOutcome) :
    ∀ fuel i, 1 ≤ fuel → 1 ≤ (getWithRetryLoop oracle i fuel).attempts := by
  intro fuel i hf
  match fuel, hf with
  | 1, _ =>
    simp only [getWithRetryLoop]
    cases oracle i with
    | ok resp => by_cases hs : resp.statusCode < 500 <;> simp [hs]
    | error e => simp
  | (m + 2), _ =>
    simp only [getWithRetryLoop]
    cases oracle i with
    | ok resp =>
      by_cases hs : resp.statusCode < 500
      · simp [hs]
      · simp [hs, retryStep]
    | error e => simp [retryStep]

/-- Claim C9: a retries value of 0 yields exactly one attempt, and a
dispatch with retry count r makes at most r + 1 attempts. -/
theorem retries_bound_attempts (oracle : Nat → AttemptOutcome) (r : Nat) :
    (getWithRetryModel oracle r).attempts ≤ r + 1 ∧
    (getWithRetryModel oracle 0).attempts = 1 := by
  constructor
  · exact getWithRetryLoop_attempts_le oracle (r + 1) 0
  · exact Nat.le_antisymm (getWithRetryLoop_attempts_le oracle 1 0)
      (getWithRetryLoop_attempts_pos oracle 1 0 (Nat.le_refl 1))

/-- Counterexample to claim C4: with retry budget available, a 429
response is returned immediately as a success after a single attempt —
it is not classified retryable. -/
theorem status_429_returned_as_success :
    getWithRetryModel (fun _ => Except.ok resp429) 2 =
      { result := some resp429, lastErr := none, attempts := 1, sleeps := [] } ∧
    resp429.statusCode = 429 :=
  ⟨rfl, rfl⟩

/-- Claim C4 (amended): an attempt returning without transport error and
with any status below 500 — 2xx, 3xx, all 4xx including 429 — is a
success and is returned immediately; a 5xx response or a transport
error is retryable and triggers another attempt while budget remains. -/
theorem classify_success_below_500 (oracle : Nat → AttemptOutcome) (i fuel : Nat) :
    (∀ resp, oracle i = .ok resp → resp.statusCode < 500 →
      getWithRetryLoop oracle i (fuel + 1) =
        { result := some resp, lastErr := none, attempts := 1, sleeps := [] }) ∧
    (∀ resp, oracle i = .ok resp → 500 ≤ resp.statusCode →
      getWithRetryLoop oracle i (fuel + 2) =
        retryStep (getWithRetryLoop oracle (i + 1) (fuel + 1)) i) ∧
    (∀ e, oracle i = .error e →
      getWithRetryLoop oracle i (fuel + 2) =
        retryStep (getWithRetryLoop oracle (i + 1) (fuel + 1)) i) := by
  refine ⟨?_, ?_, ?_⟩
  · intro resp h hs
    cases fuel with
    | zero => simp [getWithRetryLoop, h, hs]
    | succ k => simp [getWithRetryLoop, h, hs]
  · intro resp h hs
    have hns : ¬ resp.statusCode < 500 := Nat.not_lt.mpr hs
    simp [getWithRetryLoop, h, hns]
  · intro e h
    simp [getWithRetryLoop, h]

/-- Witness for C4's amended claim at a concrete 200 response. -/
theorem classify_success_below_500_witness :
    getWithRetryLoop (fun _ => Except.ok resp200) 0 1 =
      { result := some resp200, lastErr := none, attempts := 1, sleeps := [] } :=
  (classify_success_below_500 (fun _ => Except.ok resp200) 0 0).1 resp200 rfl (by decide)

/-- Helper: the backoffs slept during a run are those of the failed
non-final attempts, in order. -/
theorem getWithRetryLoop_sleeps_eq (oracle : Nat → AttemptOutcome) :
    ∀ fuel i, (getWithRetryLoop oracle i fuel).sleeps =
      (List.range' i ((getWithRetryLoop oracle i fuel).attempts - 1)).map backoffMs := by
  intro fuel
  induction fuel with
  | zero => intro i; simp [getWithRetryLoop]
  | succ n ih =>
    intro i
    cases n with
    | zero =>
      simp only [getWithRetryLoop]
      cases oracle i with
      | ok resp => by_cases hs : resp.statusCode < 500 <;> simp [hs]
      | error e => simp
    | succ m =>
      have hpos := getWithRetryLoop_attempts_pos oracle (m + 1) (i + 1)
        (Nat.succ_le_succ (Nat.zero_le m))
      obtain ⟨k, hk⟩ : ∃ k, (getWithRetryLoop oracle (i + 1) (m + 1)).attempts = k + 1 :=
        ⟨(getWithRetryLoop oracle (i + 1) (m + 1)).attempts - 1,
          (Nat.succ_pred_eq_of_pos hpos).symm⟩
      simp only [getWithRetryLoop]
      cases oracle i with
      | ok resp =>
        by_cases hs : resp.statusCode < 500
        · simp [hs]
        · simp only [hs, if_false, retryStep]
          rw [ih (i + 1), hk]
          simp [List.range'_succ]
      | error e =>
        simp only [retryStep]
        rw [ih (i + 1), hk]
        simp [List.range'_succ]

/-- Counterexample to claim C7: there are no backoff-base and
backoff-max parameters (milliseconds) under which every slept backoff
lies in the claimed band, capped exponential plus jitter in
[0, backoff-base] — the code's backoff grows linearly without bound. -/
theorem backoff_not_exponential_capped_jittered :
    ¬ ∃ backoffBase backoffMax : Nat, ∀ i : Nat,
      min (backoffBase * 2 ^ i) backoffMax ≤ backoffMs i ∧
      backoffMs i ≤ min (backoffBase * 2 ^ i) backoffMax + backoffBase := by
  rintro ⟨b, C, h⟩
  have h2 := (h (C + b)).2
  have h3 : min (b * 2 ^ (C + b)) C ≤ C := Nat.min_le_right _ _
  have h5 : min (b * 2 ^ (C + b)) C + b ≤ C + b := Nat.add_le_add_right h3 b
  have h4 : backoffMs (C + b) ≤ C + b := le_trans h2 h5
  simp only [backoffMs] at h4
  omega

/-- Claim C7 (amended): after failed attempt i the loop sleeps exactly
(i + 1) × 2 seconds — a linear, uncapped, jitter-free backoff; a run's
sleep trace is that function over the failed non-final attempts. -/
theorem backoff_linear_two_seconds (oracle : Nat → AttemptOutcome) (r : Nat) :
    (getWithRetryModel oracle r).sleeps =
      (List.range ((getWithRetryModel oracle r).attempts - 1)).map backoffMs ∧
    (∀ i, backoffMs i = 2000 * (i + 1)) := by
  constructor
  · have h := getWithRetryLoop_sleeps_eq oracle (r + 1) 0
    simpa [getWithRetryModel, List.range_eq_range'] using h
  · intro i; rfl

/-- Helper: one scan step never increases the best latency. -/
theorem bestStep_snd_le (hm : HealthMap) (acc : String × Nat) (u : String) :
    (bestStep hm acc u).2 ≤ acc.2 := by
  unfold bestStep
  cases getProxyHealth hm u with
  | none => exact Nat.le_refl _
  | some h =>
    by_cases hlt : h.latencyMs < acc.2
    · simpa [hlt] using Nat.le_of_lt hlt
    · simp [hlt]

/-- Helper: one scan step either keeps the accumulator or moves to the
scanned URL with its looked-up latency. -/
theorem bestStep_eq_or (hm : HealthMap) (acc : String × Nat) (u : String) :
    bestStep hm acc u = acc ∨
    ∃ h, getProxyHealth hm u = some h ∧ bestStep hm acc u = (u, h.latencyMs) := by
  unfold bestStep
  cases hl : getProxyHealth hm u with
  | none => exact Or.inl rfl
  | some h =>
    by_cases hlt : h.latencyMs < acc.2
    · exact Or.inr ⟨h, rfl, by simp [hlt]⟩
    · simp [hlt]

/-- Helper: after scanning a URL whose record is in the map, the best
latency is at most that record's latency. -/
theorem bestStep_le_lookup (hm : HealthMap) (acc : String × Nat) (u : String)
    (h : ProxyHealth) (hl : getProxyHealth hm u = some h) :
    (bestStep hm acc u).2 ≤ h.latencyMs := by
  unfold bestStep
  rw [hl]
  by_cases hlt : h.latencyMs < acc.2
  · simp [hlt]
  · simpa [hlt] using Nat.le_of_not_lt hlt

/-- Helper: the scan either returns its starting accumulator or a URL
from the scanned list. -/
theorem foldBest_eq_or_mem (hm : HealthMap) :
    ∀ (l : List String) (acc : String × Nat),
      l.foldl (bestStep hm) acc = acc ∨ (l.foldl (bestStep hm) acc).1 ∈ l := by
  intro l
  induction l with
  | nil => intro acc; exact Or.inl rfl
  | cons x t ih =>
    intro acc
    simp only [List.foldl_cons]
    rcases ih (bestStep hm acc x) with heq | hmem
    · rw [heq]
      rcases bestStep_eq_or hm acc x with h1 | ⟨h, _, h2⟩
      · exact Or.inl h1
      · right
        rw [h2]
        exact List.mem_cons_self x t
    · exact Or.inr (List.mem_cons_of_mem x hmem)

/-- Helper: the scan never increases the best latency. -/
theorem foldBest_snd_le (hm : HealthMap) :
    ∀ (l : List String) (acc : String × Nat), (l.foldl (bestStep hm) acc).2 ≤ acc.2 := by
  intro l
  induction l with
  | nil => intro acc; exact Nat.le_refl _
  | cons x t ih =>
    intro acc
    simp only [List.foldl_cons]
    exact Nat.le_trans (ih (bestStep hm acc x)) (bestStep_snd_le hm acc x)

/-- Helper: the scanned best latency is at most the latency of every
scanned URL with a record in the map. -/
theorem foldBest_min (hm : HealthMap) :
    ∀ (l : List String) (acc : String × Nat) (u : String), u ∈ l →
      ∀ h, getProxyHealth hm u = some h → (l.foldl (bestStep hm) acc).2 ≤ h.latencyMs := by
  intro l
  induction l with
  | nil => intro acc u hu; cases hu
  | cons x t ih =>
    intro acc u hu h hl
    simp only [List.foldl_cons]
    rcases List.mem_cons.mp hu with rfl | hmem
    · exact Nat.le_trans (foldBest_snd_le hm t (bestStep hm acc u)) (bestStep_le_lookup hm acc u h hl)
    · exact ih (bestStep hm acc x) u hmem h hl

/-- Helper: the scan result is the sentinel or carries the looked-up
latency of its own URL. -/
theorem foldBest_lookup (hm : HealthMap) :
    ∀ (l : List String) (acc : String × Nat),
      (acc = ("", hourMs) ∨ ∃ r, getProxyHealth hm acc.1 = some r ∧ r.latencyMs = acc.2) →
      (l.foldl (bestStep hm) acc = ("", hourMs) ∨
        ∃ r, getProxyHealth hm (l.foldl (bestStep hm) acc).1 = some r ∧
          r.latencyMs = (l.foldl (bestStep hm) acc).2) := by
  intro l
  induction l with
  | nil => intro acc h; exact h
  | cons x t ih =>
    intro acc h
    simp only [List.foldl_cons]
    apply ih
    rcases bestStep_eq_or hm acc x with h1 | ⟨hr, hlk, h2⟩
    · rw [h1]; exact h
    · right
      rw [h2]
      exact ⟨hr, hlk, rfl⟩

/-- Helper: a URL in `GetHealthyProxies` comes from a map entry that is
healthy with status "active". -/
theorem mem_getHealthyProxies (hm : HealthMap) (u : String) (h : u ∈ getHealthyProxies hm) :
    ∃ rec, (u, rec) ∈ hm ∧ rec.isHealthy = true ∧ rec.status = "active" := by
  simp only [getHealthyProxies, List.mem_map] at h
  obtain ⟨⟨u', rec⟩, hmem, hfst⟩ := h
  rw [List.mem_filter] at hmem
  obtain ⟨hin, hcond⟩ := hmem
  simp only [Bool.and_eq_true, beq_iff_eq] at hcond
  cases hfst
  exact ⟨rec, hin, hcond.1, hcond.2⟩

/-- Helper: with health monitoring on and at least one healthy-active
proxy, health-aware `GetNext` returns a member of `GetHealthyProxies`
and leaves the rotator unchanged. -/
theorem getNext_healthAware_mem (pr : ProxyRotator) (hm : HealthMap)
    (hmode : pr.mode = .healthAware) (hen : pr.enableHealth = true)
    (hhc : pr.healthChecker = some hm) (hlen : pr.proxies.length ≠ 0)
    (hne : getHealthyProxies hm ≠ []) :
    ∃ p, getNext pr = some (p, pr) ∧ p ∈ getHealthyProxies hm := by
  unfold getNext
  rw [if_neg hlen, hmode]
  unfold getHealthyProxy
  rw [hen, hhc]
  simp only [if_pos]
  cases hh : getHealthyProxies hm with
  | nil => exact absurd hh hne
  | cons first rest =>
    by_cases hb : (findBestProxy hm (first :: rest)).1 = ""
    · refine ⟨first, ?_, ?_⟩
      · simp [hb]
      · exact List.mem_cons_self first rest
    · refine ⟨(findBestProxy hm (first :: rest)).1, ?_, ?_⟩
      · simp [hb]
      · rcases foldBest_eq_or_mem hm (first :: rest) ("", hourMs) with heq | hmem
        · exact absurd (by rw [findBestProxy, heq]) hb
        · exact hmem

/-- Counterexample to claim C2: in a reachable pool whose first proxy is
Failed and whose second is Degraded (not Failed, no successful probe in
between), health-aware GetNext returns the Failed proxy: the
no-active-proxy fallback rotates over the full list. -/
theorem failed_proxy_selected_despite_nonfailed_peer :
    getNext c2Rotator = some ("p1", { c2Rotator with current := 1 }) ∧
    getProxyHealth [("p1", c2FailedHealth), ("p2", c2DegradedHealth)] "p1" =
      some c2FailedHealth ∧
    c2FailedHealth.status = "failed" ∧
    c2DegradedHealth.status ≠ "failed" := by
  refine ⟨rfl, rfl, rfl, ?_⟩
  decide

/-- Claim C2 (amended): a Failed proxy is never selected while at least
one proxy is healthy with status "active" — the selection then comes
from `GetHealthyProxies`, whose members are all Active; once no proxy is
Active, the fallback round-robin may return a Failed proxy. -/
theorem failed_not_selected_while_active_exists (pr : ProxyRotator) (hm : HealthMap)
    (hmode : pr.mode = .healthAware) (hen : pr.enableHealth = true)
    (hhc : pr.healthChecker = some hm) (hlen : pr.proxies.length ≠ 0)
    (hne : getHealthyProxies hm ≠ []) :
    ∃ p rec, getNext pr = some (p, pr) ∧ (p, rec) ∈ hm ∧
      rec.status = "active" ∧ rec.status ≠ "failed" := by
  obtain ⟨p, hsel, hmem⟩ := getNext_healthAware_mem pr hm hmode hen hhc hlen hne
  obtain ⟨rec, hin, _, hst⟩ := mem_getHealthyProxies hm p hmem
  refine ⟨p, rec, hsel, hin, hst, ?_⟩
  rw [hst]
  decide

/-- Witness for C2's amended claim on a concrete all-active pool. -/
theorem failed_not_selected_while_active_exists_witness :
    ∃ p rec, getNext cwRotator = some (p, cwRotator) ∧ (p, rec) ∈ cwHealthMap ∧
      rec.status = "active" ∧ rec.status ≠ "failed" :=
  failed_not_selected_while_active_exists cwRotator cwHealthMap rfl rfl rfl
    (by decide) (by decide)

/-- Counterexample to claim C3: with every proxy Disabled in a
non-empty pool, health-aware selection does not return None — it
returns the proxy at the rotation index even though it is Disabled. -/
theorem all_disabled_still_returns_a_proxy :
    getNext c3Rotator = some ("p1", c3Rotator) ∧
    (disableProxy (newProxyHealth "p1")).status = "disabled" ∧
    "p1" ≠ "" := by
  refine ⟨?_, rfl, by decide⟩
  decide

/-- Claim C3 (amended): health-aware selection filters to proxies that
are healthy with status "active"; among them it returns one whose
looked-up latency is minimal (ties and sub-sentinel scanning go to map
iteration order, not least-recently-used); if no proxy is Active it
returns the proxy at the current rotation index regardless of its state
— including Disabled — advancing the index; the None sentinel is
reserved for an empty proxy list. -/
theorem healthAware_selection_characterization (pr : ProxyRotator) (hm : HealthMap)
    (hmode : pr.mode = .healthAware) (hen : pr.enableHealth = true)
    (hhc : pr.healthChecker = some hm) (hlen : pr.proxies.length ≠ 0) :
    (getHealthyProxies hm = [] →
      getNext pr = fallbackRotate pr ∧
      ∀ p, pr.proxies.get? pr.current = some p →
        getNext pr = some (p, { pr with current := (pr.current + 1) % pr.proxies.length })) ∧
    (getHealthyProxies hm ≠ [] →
      ∃ p, getNext pr = some (p, pr) ∧ p ∈ getHealthyProxies hm) ∧
    (getHealthyProxies hm ≠ [] → "" ∉ getHealthyProxies hm →
      (∃ u ∈ getHealthyProxies hm, ∃ r, getProxyHealth hm u = some r ∧ r.latencyMs < hourMs) →
      ∃ p rbest, getNext pr = some (p, pr) ∧ getProxyHealth hm p = some rbest ∧
        ∀ u ∈ getHealthyProxies hm, ∀ rec, getProxyHealth hm u = some rec →
          rbest.latencyMs ≤ rec.latencyMs) := by
  refine ⟨?_, ?_, ?_⟩
  · intro hempty
    have hsel : getNext pr = fallbackRotate pr := by
      unfold getNext
      rw [if_neg hlen, hmode]
      unfold getHealthyProxy
      rw [hen, hhc]
      simp only [if_pos, hempty]
    refine ⟨hsel, ?_⟩
    intro p hp
    rw [hsel]
    unfold fallbackRotate
    rw [hp]
  · intro hne
    exact getNext_healthAware_mem pr hm hmode hen hhc hlen hne
  · intro hne hnblank hwit
    obtain ⟨uw, hwmem, rw_, hwlk, hwlat⟩ := hwit
    cases hh : getHealthyProxies hm with
    | nil => exact absurd hh hne
    | cons first rest =>
      have hwmem' : uw ∈ first :: rest := hh ▸ hwmem
      have hmin : (findBestProxy hm (first :: rest)).2 ≤ rw_.latencyMs :=
        foldBest_min hm (first :: rest) ("", hourMs) uw hwmem' rw_ hwlk
      have hlt : (findBestProxy hm (first :: rest)).2 < hourMs :=
        Nat.lt_of_le_of_lt hmin hwlat
      have hlook := foldBest_lookup hm (first :: rest) ("", hourMs) (Or.inl rfl)
      rcases hlook with hsent | ⟨rbest, hrlk, hrlat⟩
      · exfalso
        have : (findBestProxy hm (first :: rest)).2 = hourMs := by
          rw [findBestProxy, hsent]
        omega
      · have hb : (findBestProxy hm (first :: rest)).1 ≠ "" := by
          intro hblank
          rcases foldBest_eq_or_mem hm (first :: rest) ("", hourMs) with heq | hmem2
          · have : (findBestProxy hm (first :: rest)).2 = hourMs := by
              rw [findBestProxy, heq]
            omega
          · exact hnblank (hh ▸ (hblank ▸ hmem2))
        have hsel : getNext pr = some ((findBestProxy hm (first :: rest)).1, pr) := by
          unfold getNext
          rw [if_neg hlen, hmode]
          unfold getHealthyProxy
          rw [hen, hhc]
          simp only [if_pos, hh]
          simp [hb]
        refine ⟨(findBestProxy hm (first :: rest)).1, rbest, hsel, hrlk, ?_⟩
        intro u hu rec hulk
        have hu' : u ∈ first :: rest := hh ▸ hu
        have := foldBest_min hm (first :: rest) ("", hourMs) u hu' rec hulk
        omega

/-- Witness for C3's amended claim on a concrete two-proxy Active pool
with distinct latencies. -/
theorem healthAware_selection_characterization_witness :
    ∃ p rbest, getNext cwRotator = some (p, cwRotator) ∧
      getProxyHealth cwHealthMap p = some rbest ∧
      ∀ u ∈ getHealthyProxies cwHealthMap, ∀ rec, getProxyHealth cwHealthMap u = some rec →
        rbest.latencyMs ≤ rec.latencyMs :=
  (healthAware_selection_characterization cwRotator cwHealthMap rfl rfl rfl
      (by decide)).2.2 (by decide) (by decide)
    ⟨"p1", by decide, activeHealth50, by decide, by decide⟩

/-- Claim C10: on a non-empty proxy list (with a valid rotation index)
MarkFailed returns normally and leaves the index within bounds; on an
empty list, in the modes other than health-aware, the
`(current + 1) % len` update divides by zero — the Go panic, modelled
as `none`. -/
theorem markFailed_safe_on_nonempty (pr : ProxyRotator) (u : String) :
    (0 < pr.proxies.length → pr.current < pr.proxies.length →
      ∃ pr', markFailed pr u = some pr' ∧ pr'.proxies = pr.proxies ∧
        pr'.current < pr.proxies.length) ∧
    (pr.proxies.length = 0 → pr.mode ≠ .healthAware → markFailed pr u = none) := by
  constructor
  · intro hpos hcur
    by_cases hmode : pr.mode = .healthAware
    · refine ⟨{ pr with failedCount := bumpFailedCount pr.failedCount u }, ?_, rfl, hcur⟩
      unfold markFailed
      simp [hmode]
    · have hlen0 : ¬ pr.proxies.length = 0 := Nat.pos_iff_ne_zero.mp hpos
      refine ⟨{ pr with
                  failedCount := bumpFailedCount pr.failedCount u
                  current := (pr.current + 1) % pr.proxies.length }, ?_, rfl, ?_⟩
      · unfold markFailed
        simp [hmode, hlen0]
      · exact Nat.mod_lt _ hpos
  · intro hz hmode
    unfold markFailed
    simp [hmode, hz]

/-- Witness for C10 on a concrete one-proxy rotator. -/
theorem markFailed_safe_on_nonempty_witness :
    ∃ pr', markFailed c10Rotator "p1" = some pr' ∧ pr'.proxies = c10Rotator.proxies ∧
      pr'.current < c10Rotator.proxies.length :=
  (markFailed_safe_on_nonempty c10Rotator "p1").1 (by decide) (by decide)

/-- Claim C5 (code evaluated at the failing input): `saveCookies` parses
the synthetic request's "Cookie" header — absent, since the header map
holds only "Set-Cookie" — so receiving `s=1` and then `s=2` for
`a.test` stores nothing at all: the jar's entry stays empty, while the
parser itself would handle `s=1` fine and the spec's replace-merge of
the two parsed cookies would leave exactly one cookie `s=2`. -/
theorem saveCookies_reads_wrong_header :
    saveCookies (saveCookies [] "a.test" [("Set-Cookie", ["s=1"])]) "a.test"
        [("Set-Cookie", ["s=2"])] = [("a.test", [])] ∧
    requestCookies [("Set-Cookie", ["s=1"])] = [] ∧
    parseCookiePair "s=1" = some { name := "s", value := "1" } ∧
    List.foldl specMergeCookie []
        [{ name := "s", value := "1" }, { name := "s", value := "2" }] =
      [{ name := "s", value := "2" }] := by
  refine ⟨rfl, rfl, ?_, ?_⟩ <;> decide

/-- Helper: the status written by `recordFailure`, as a conditional. -/
theorem recordFailure_status (mf : Nat) (h : ProxyHealth) (e : String) :
    (recordFailure mf h e).status =
      if (mf : Int) ≤ (h.failureCount : Int) + 1 - (h.successCount : Int)
        then "failed" else "degraded" := by
  by_cases hc : (mf : Int) ≤ (h.failureCount : Int) + 1 - (h.successCount : Int)
  · simp [recordFailure, hc]
  · simp [recordFailure, hc]

/-- Helper: the alternating success/failure history has equal lifetime
counters after each round. -/
theorem alternate_counts (mf : Nat) :
    ∀ n, (alternate mf n).failureCount = n ∧ (alternate mf n).successCount = n := by
  intro n
  induction n with
  | zero => exact ⟨rfl, rfl⟩
  | succ k ih =>
    obtain ⟨hf, hs⟩ := ih
    constructor
    · simp only [alternate, recordFailure, recordSuccess]
      split <;> simp [hf]
    · simp only [alternate, recordFailure, recordSuccess]
      split <;> simp [hs]

/-- Counterexample to claim C6: with `maxFailures` 3, two successes
followed by three hard failures — three consecutive failures since the
last success — leave the proxy Degraded, not Failed: the code compares
lifetime `FailureCount - SuccessCount`, not a consecutive counter. -/
theorem three_consecutive_failures_not_failed :
    c6TwoSuccessThreeFailures.status = "degraded" ∧
    c6TwoSuccessThreeFailures.status ≠ "failed" ∧
    c6TwoSuccessThreeFailures.failureCount = 3 ∧
    c6TwoSuccessThreeFailures.successCount = 2 := by
  refine ⟨rfl, ?_, rfl, rfl⟩
  decide

/-- Claim C6 (amended): a hard failure transitions the proxy to Failed
exactly when the lifetime difference FailureCount − SuccessCount (after
the increment) reaches max_failures; a success does not reset the
failure counter — it increments the success counter — and consequently
a proxy alternating success and failure never reaches Failed for
max_failures ≥ 2. -/
theorem failure_transition_uses_lifetime_counts
    (h : ProxyHealth) (mf : Nat) (e : String) (lat : Nat) :
    ((recordFailure mf h e).status = "failed" ↔
      (mf : Int) ≤ (h.failureCount : Int) + 1 - (h.successCount : Int)) ∧
    (recordFailure mf h e).failureCount = h.failureCount + 1 ∧
    (recordSuccess h lat).failureCount = h.failureCount ∧
    (recordSuccess h lat).successCount = h.successCount + 1 ∧
    (∀ mf' n, 2 ≤ mf' → (alternate mf' n).status ≠ "failed") := by
  refine ⟨?_, ?_, rfl, rfl, ?_⟩
  · rw [recordFailure_status]
    by_cases hc : (mf : Int) ≤ (h.failureCount : Int) + 1 - (h.successCount : Int)
    · rw [if_pos hc]
      exact iff_of_true rfl hc
    · rw [if_neg hc]
      constructor
      · intro hcontra
        exact absurd hcontra (by decide)
      · intro hgoal
        exact absurd hgoal hc
  · simp only [recordFailure]
    split <;> rfl
  · intro mf' n hmf
    cases n with
    | zero =>
      simp only [alternate, newProxyHealth]
      decide
    | succ k =>
      obtain ⟨hf, hs⟩ := alternate_counts mf' k
      have hf2 : (recordSuccess (alternate mf' k) 100).failureCount = k := hf
      have hs2 : (recordSuccess (alternate mf' k) 100).successCount = k + 1 := by
        simp [recordSuccess, hs]
      have hcond : ¬ ((mf' : Int) ≤
          ((recordSuccess (alternate mf' k) 100).failureCount : Int) + 1 -
            ((recordSuccess (alternate mf' k) 100).successCount : Int)) := by
        rw [hf2, hs2]
        push_cast
        omega
      simp only [alternate]
      rw [recordFailure_status, if_neg hcond]
      decide

/-- Witness for C6's amended claim: the alternating history with
max_failures 2 never reaches Failed after five rounds. -/
theorem failure_transition_uses_lifetime_counts_witness :
    (alternate 2 5).status ≠ "failed" :=
  (failure_transition_uses_lifetime_counts (newProxyHealth "q") 2 "e" 0).2.2.2.2 2 5
    (by decide)

/-- Helper: the request loop of `main` always leaves exit status 0. -/
theorem mainRequestLoop_exit_zero : ∀ outs : List Bool, (mainRequestLoop outs).2 = 0 := by
  intro outs
  induction outs with
  | nil => rfl
  | cons a t ih => simp [mainRequestLoop, ih]

/-- Counterexample to claim C8: with a valid configuration and a job
that fails after its retries, the process still exits 0, not 2 — job
failures are only logged. -/
theorem job_failure_exits_zero :
    mainExitCode "http://a.test/" "" [false] = 0 ∧
    mainExitCode "http://a.test/" "" [false] ≠ 2 := by
  refine ⟨rfl, ?_⟩
  decide

/-- Claim C8 (amended): the process exits 1 on the configuration errors
of missing or mutually exclusive `url`/`urls-file`, and exits 0
otherwise regardless of job outcomes; no path exits with code 2. -/
theorem exit_codes_zero_or_one (urlFlag urlsFileFlag : String) (outs : List Bool) :
    (urlFlag = "" → urlsFileFlag = "" → mainExitCode urlFlag urlsFileFlag outs = 1) ∧
    (urlFlag ≠ "" → urlsFileFlag ≠ "" → mainExitCode urlFlag urlsFileFlag outs = 1) ∧
    (urlFlag ≠ "" → urlsFileFlag = "" → mainExitCode urlFlag urlsFileFlag outs = 0) ∧
    (urlFlag = "" → urlsFileFlag ≠ "" → mainExitCode urlFlag urlsFileFlag outs = 0) ∧
    mainExitCode urlFlag urlsFileFlag outs ≠ 2 := by
  have hloop := mainRequestLoop_exit_zero outs
  by_cases h1 : urlFlag = "" <;> by_cases h2 : urlsFileFlag = "" <;>
    simp [mainExitCode, mainValidate, h1, h2, hloop]

/-- Witness for C8's amended claim at a concrete valid configuration. -/
theorem exit_codes_zero_or_one_witness :
    mainExitCode "http://a.test/" "" [true] = 0 :=
  (exit_codes_zero_or_one "http://a.test/" "" [true]).2.2.1 (by decide) rfl
